import Mathlib

/-!
# Verification of the item/tag/association service

A shallow embedding of `src/flask-mongo-app/app.py` (a Flask + MongoDB CRUD
service for items, tags and item-tag associations), together with proofs of
the behavioural properties stated in the repository's specification.

Modelling conventions:
* MongoDB `ObjectId` values are modelled as natural numbers (`OId`); the
  storage layer's id generator is a counter carried in the state.  The
  external (string) form of an id is its 24-character lowercase hexadecimal
  rendering, and `ObjectId(string)` parsing succeeds exactly on 24-character
  hexadecimal strings, as in the `bson` library.  `ObjectId(None)` generates
  a fresh id (it does not raise), which the embedding mirrors by drawing
  fresh ids from the counter; any other JSON value raises, which the
  embedding mirrors by returning `none`.
* Each collection (`items`, `tags`, `item_tags`) is an insertion-ordered
  list of documents.  `find` / `find_one` / `update_one` act on the first
  match, as MongoDB does in natural order.
* JSON request bodies are modelled by the inductive `JVal` / `JObj`.
* Each Flask handler becomes a function from the database state (and the
  request data) to a response paired with the next database state.
-/

namespace TaggingSystem

/-- JSON values, as produced by Flask's `request.get_json()`. -/
inductive JVal where
  | null
  | bool (b : Bool)
  | num (n : Int)
  | str (s : String)
  | arr (elems : List JVal)
  | obj (fields : List (String × JVal))

/-- A JSON object (Python `dict`): an association list with unique keys. -/
abbrev JObj := List (String × JVal)

/-- Python's `dict.get`: the value stored under key `k`, if any. -/
def jGet (o : JObj) (k : String) : Option JVal :=
  (o.find? (fun kv => decide (kv.1 = k))).map (fun kv => kv.2)

/-- An internal MongoDB ObjectId, modelled as the numeric value of its
12 bytes. -/
abbrev OId := Nat

/-- Characters accepted by `bytes.fromhex`, hence by `ObjectId(str)`. -/
def isHexDigitChar (c : Char) : Bool :=
  c.isDigit || ('a' ≤ c && c ≤ 'f') || ('A' ≤ c && c ≤ 'F')

/-- Numeric value of a hexadecimal digit character. -/
def hexDigitVal (c : Char) : Nat :=
  if c.isDigit then c.toNat - '0'.toNat
  else if 'a' ≤ c && c ≤ 'f' then c.toNat - 'a'.toNat + 10
  else if 'A' ≤ c && c ≤ 'F' then c.toNat - 'A'.toNat + 10
  else 0

/-- `ObjectId(s)` for a string `s`: succeeds exactly on 24-character
hexadecimal strings (the `bson` ObjectId format), returning the numeric
value of the encoded 12 bytes; raises (here: `none`) otherwise. -/
def parseOid (s : String) : Option OId :=
  if s.length = 24 ∧ s.data.all isHexDigitChar then
    some (s.data.foldl (fun a c => a * 16 + hexDigitVal c) 0)
  else none

/-- The hexadecimal digit character for `n < 16` (lowercase). -/
def hexChar (n : Nat) : Char :=
  if n < 10 then Char.ofNat ('0'.toNat + n) else Char.ofNat ('a'.toNat + (n - 10))

/-- The last `k` hexadecimal digits of `o`, most significant first. -/
def formatOidAux : Nat → Nat → List Char
  | 0, _ => []
  | k + 1, o => formatOidAux k (o / 16) ++ [hexChar (o % 16)]

/-- `str(oid)`: the 24-character lowercase hexadecimal rendering of an
ObjectId. -/
def formatOid (o : OId) : String := ⟨formatOidAux 24 o⟩

/-- One document of the `item_tags` collection: an item id together with
the array of tag ids linked to it. -/
structure ItemTagRec where
  item_id : OId
  tag_ids : List OId
deriving DecidableEq, Repr

/-- The database state: the three collections, plus the ObjectId
generator's counter (all ids ever generated are below `nextOid`). -/
structure AppState where
  items : List (OId × JObj)
  tags : List (OId × JObj)
  item_tags : List ItemTagRec
  nextOid : OId

/-- The empty database. -/
def initState : AppState := { items := [], tags := [], item_tags := [], nextOid := 0 }

/-- Responses of the two `create` handlers. -/
inductive CreateResp where
  | err (status : Nat) (msg : String)
  | ok (status : Nat) (inserted_id : String)
deriving DecidableEq, Repr

/-- `POST /items` (`create_item`): rejects an absent or empty payload with
400 "No data provided"; otherwise inserts the payload verbatim under a
fresh id and returns 201 with the stringified id. -/
def create_item (s : AppState) (data : Option JObj) : CreateResp × AppState :=
  match data with
  | none => (.err 400 "No data provided", s)
  | some [] => (.err 400 "No data provided", s)
  | some d =>
    (.ok 201 (formatOid s.nextOid),
     { s with items := s.items ++ [(s.nextOid, d)], nextOid := s.nextOid + 1 })

/-- `POST /tags` (`create_tag`): rejects an absent or empty payload with
400 "No data provided"; otherwise inserts the payload verbatim under a
fresh id and returns 200 with the stringified id. -/
def create_tag (s : AppState) (data : Option JObj) : CreateResp × AppState :=
  match data with
  | none => (.err 400 "No data provided", s)
  | some [] => (.err 400 "No data provided", s)
  | some d =>
    (.ok 200 (formatOid s.nextOid),
     { s with tags := s.tags ++ [(s.nextOid, d)], nextOid := s.nextOid + 1 })

/-- `GET /items` (`list_items`): all item documents, ids externalized to
strings. -/
def list_items (s : AppState) : List (String × JObj) × AppState :=
  (s.items.map (fun it => (formatOid it.1, it.2)), s)

/-- `GET /tags` (`list_tags`): all tag documents, ids returned raw (the
source does not stringify them). -/
def list_tags (s : AppState) : List (OId × JObj) × AppState :=
  (s.tags, s)

/-- `ObjectId(v)` for a JSON value `v` from the `tag_ids` array, given the
generator counter: a string parses per `parseOid`, `null` yields a freshly
generated id (bson generates instead of raising on `None`), anything else
raises. Returns the parsed id and the updated counter. -/
def oidOfJVal (v : JVal) (fresh : OId) : Option (OId × OId) :=
  match v with
  | .str s => (parseOid s).map (fun o => (o, fresh))
  | .null => some (fresh, fresh + 1)
  | _ => none

/-- `[ObjectId(t) for t in tag_ids]`: parse every entry, threading the
generator counter; fails if any entry raises. -/
def parseTagOids (fresh : OId) : List JVal → Option (List OId)
  | [] => some []
  | v :: vs =>
    match oidOfJVal v fresh with
    | none => none
    | some (o, fresh') => (parseTagOids fresh' vs).map (fun os => o :: os)

/-- MongoDB `$addToSet` with a single element: append it unless already
present. -/
def addToSet (l : List OId) (x : OId) : List OId :=
  if x ∈ l then l else l ++ [x]

/-- MongoDB `$addToSet` with `$each`: add each element in order, skipping
those already present. -/
def addToSetEach (l : List OId) (xs : List OId) : List OId :=
  xs.foldl addToSet l

/-- `update_one({"item_id": oid}, {"$addToSet": {"tag_ids": {"$each": tag_oids}}},
upsert=True)`: update the first record with this item id, or insert a new
record built from the filter and the update. -/
def upsertItemTags : List ItemTagRec → OId → List OId → List ItemTagRec
  | [], oid, tag_oids => [⟨oid, addToSetEach [] tag_oids⟩]
  | r :: rs, oid, tag_oids =>
    if r.item_id = oid then ⟨r.item_id, addToSetEach r.tag_ids tag_oids⟩ :: rs
    else r :: upsertItemTags rs oid tag_oids

/-- Responses of the association handler. -/
inductive AssocResp where
  | err (status : Nat) (msg : String)
  | ok (message : String) (item_id : String) (tag_ids : List String)
deriving DecidableEq, Repr

/-- The `"tag_ids"` field of the request body, defaulting to the empty
array: `data.get("tag_ids", [])`. -/
def tagIdsValue (data : JObj) : JVal :=
  (jGet data "tag_ids").getD (JVal.arr [])

/-- The set of ids of existing tag documents among the requested ones:
`set(doc["_id"] for doc in tags.find({"_id": {"$in": tag_oids}}))`, with
its cardinality given by the list's length. -/
def existingTags (s : AppState) (tag_oids : List OId) : List OId :=
  ((s.tags.map Prod.fst).filter (fun o => decide (o ∈ tag_oids))).dedup

/-- `POST /items/{item_id}/tags` (`create_item_tag_association`): validate
the `tag_ids` field's shape, parse all identifiers, check the item and
every tag exist, then upsert the union into `item_tags`. -/
def create_item_tag_association (s : AppState) (item_id : String) (data : JObj) :
    AssocResp × AppState :=
  match tagIdsValue data with
  | JVal.arr [] => (.err 400 "tag_ids must be a non-empty list", s)
  | JVal.arr (v :: vs) =>
    match parseOid item_id with
    | none => (.err 400 "Invalid ObjectId in item_id or tag_ids", s)
    | some item_oid =>
      match parseTagOids s.nextOid (v :: vs) with
      | none => (.err 400 "Invalid ObjectId in item_id or tag_ids", s)
      | some tag_oids =>
        if (s.items.find? (fun it => decide (it.1 = item_oid))).isNone then
          (.err 404 "Item not found..", s)
        else if (existingTags s tag_oids).length ≠ tag_oids.length then
          (.err 404 "One or more tag_ids not found", s)
        else
          (.ok "Tags associated with item" item_id (tag_oids.map formatOid),
           { s with item_tags := upsertItemTags s.item_tags item_oid tag_oids })
  | _ => (.err 400 "tag_ids must be a non-empty list", s)

/-- Responses of the tag-listing-per-item handler. -/
inductive TagsForResp where
  | err (status : Nat) (msg : String)
  | ok (status : Nat) (tags : List (String × JObj))

/-- `GET /items/{item_id}/tags` (`get_tags_for_item`): parse the item id,
look up the association record, and return the full tag documents (ids
externalized); no record or an empty tag array yields an empty list with
status 200, not an error. -/
def get_tags_for_item (s : AppState) (item_id : String) : TagsForResp × AppState :=
  match parseOid item_id with
  | none => (.err 400 "Invalid item_id", s)
  | some item_oid =>
    match s.item_tags.find? (fun r => decide (r.item_id = item_oid)) with
    | none => (.ok 200 [], s)
    | some tag_map =>
      match tag_map.tag_ids with
      | [] => (.ok 200 [], s)
      | t :: ts =>
        (.ok 200 ((s.tags.filter (fun tg => decide (tg.1 ∈ t :: ts))).map
          (fun tg => (formatOid tg.1, tg.2))), s)

/-- One step of the system: any handler invocation, with any request data. -/
inductive Step : AppState → AppState → Prop where
  | createItem (s : AppState) (data : Option JObj) : Step s (create_item s data).2
  | createTag (s : AppState) (data : Option JObj) : Step s (create_tag s data).2
  | listItems (s : AppState) : Step s (list_items s).2
  | listTags (s : AppState) : Step s (list_tags s).2
  | assoc (s : AppState) (item_id : String) (data : JObj) :
      Step s (create_item_tag_association s item_id data).2
  | tagsFor (s : AppState) (item_id : String) : Step s (get_tags_for_item s item_id).2

/-- States reachable from the empty database by handler invocations. -/
def Reachable (s : AppState) : Prop := Relation.ReflTransGen Step initState s

/-- The tag-id array currently stored for an item, empty if no record. -/
def assocTagsOf (l : List ItemTagRec) (i : OId) : List OId :=
  match l.find? (fun r => decide (r.item_id = i)) with
  | some r => r.tag_ids
  | none => []

/-! ## Basic lemmas about the `$addToSet` / upsert model -/

theorem addToSet_eq_of_mem {l : List OId} {x : OId} (h : x ∈ l) : addToSet l x = l := by
  simp [addToSet, h]

theorem mem_addToSet {l : List OId} {x o : OId} : o ∈ addToSet l x ↔ o ∈ l ∨ o = x := by
  by_cases h : x ∈ l
  · simp only [addToSet, if_pos h]
    constructor
    · exact Or.inl
    · rintro (ho | rfl) <;> assumption
  · simp [addToSet, if_neg h]

theorem addToSetEach_nil (l : List OId) : addToSetEach l [] = l := rfl

theorem addToSetEach_cons (l : List OId) (x : OId) (xs : List OId) :
    addToSetEach l (x :: xs) = addToSetEach (addToSet l x) xs := rfl

theorem mem_addToSetEach {xs : List OId} {l : List OId} {o : OId} :
    o ∈ addToSetEach l xs ↔ o ∈ l ∨ o ∈ xs := by
  induction xs generalizing l with
  | nil => simp [addToSetEach_nil]
  | cons x xs ih =>
    rw [addToSetEach_cons, ih, mem_addToSet]
    simp only [List.mem_cons]
    tauto

theorem addToSetEach_eq_of_subset {xs l : List OId} (h : ∀ x ∈ xs, x ∈ l) :
    addToSetEach l xs = l := by
  induction xs with
  | nil => rfl
  | cons x xs ih =>
    rw [addToSetEach_cons, addToSet_eq_of_mem (h x (by simp))]
    exact ih fun y hy => h y (by simp [hy])

theorem addToSetEach_idem (l xs : List OId) :
    addToSetEach (addToSetEach l xs) xs = addToSetEach l xs :=
  addToSetEach_eq_of_subset fun _x hx => mem_addToSetEach.mpr (Or.inr hx)

theorem upsert_keys (l : List ItemTagRec) (i : OId) (t : List OId) :
    (upsertItemTags l i t).map ItemTagRec.item_id =
      if i ∈ l.map ItemTagRec.item_id then l.map ItemTagRec.item_id
      else l.map ItemTagRec.item_id ++ [i] := by
  induction l with
  | nil => simp [upsertItemTags]
  | cons r rs ih =>
    by_cases h : r.item_id = i
    · simp [upsertItemTags, if_pos h, h]
    · have h2 : ¬ i = r.item_id := fun hh => h hh.symm
      simp only [upsertItemTags, if_neg h, List.map_cons, ih, List.mem_cons]
      by_cases hm : i ∈ rs.map ItemTagRec.item_id <;> simp [hm, h2]

theorem find?_upsert_self (l : List ItemTagRec) (i : OId) (t : List OId) :
    (upsertItemTags l i t).find? (fun r => decide (r.item_id = i)) =
      some ⟨i, addToSetEach (assocTagsOf l i) t⟩ := by
  induction l with
  | nil => simp [upsertItemTags, assocTagsOf, List.find?]
  | cons r rs ih =>
    by_cases h : r.item_id = i
    · simp [upsertItemTags, if_pos h, assocTagsOf, List.find?, h]
    · simp only [upsertItemTags, if_neg h]
      simp [List.find?, h, ih, assocTagsOf]

theorem upsert_filter_ne (l : List ItemTagRec) (i : OId) (t : List OId) :
    (upsertItemTags l i t).filter (fun r => decide (¬ r.item_id = i)) =
      l.filter (fun r => decide (¬ r.item_id = i)) := by
  induction l with
  | nil => simp [upsertItemTags]
  | cons r rs ih =>
    by_cases h : r.item_id = i
    · simp [upsertItemTags, if_pos h, h, List.filter_cons, decide_not]
    · have ih2 := ih
      simp only [decide_not] at ih2
      simp [upsertItemTags, if_neg h, h, List.filter_cons, decide_not, ih2]

theorem upsert_refs {l : List ItemTagRec} {i : OId} {t : List OId} {P : OId → Prop}
    (hl : ∀ r ∈ l, ∀ o ∈ r.tag_ids, P o) (ht : ∀ o ∈ t, P o) :
    ∀ r ∈ upsertItemTags l i t, ∀ o ∈ r.tag_ids, P o := by
  induction l with
  | nil =>
    intro r hr o ho
    simp only [upsertItemTags, List.mem_singleton] at hr
    subst hr
    rcases mem_addToSetEach.mp ho with h | h
    · simp at h
    · exact ht o h
  | cons r0 rs ih =>
    intro r hr o ho
    by_cases h : r0.item_id = i
    · simp only [upsertItemTags, if_pos h, List.mem_cons] at hr
      rcases hr with rfl | hr
      · rcases mem_addToSetEach.mp ho with hmem | hmem
        · exact hl r0 (by simp) o hmem
        · exact ht o hmem
      · exact hl r (by simp [hr]) o ho
    · simp only [upsertItemTags, if_neg h, List.mem_cons] at hr
      rcases hr with rfl | hr
      · exact hl r (by simp) o ho
      · exact ih (fun r' hr' => hl r' (by simp [hr'])) r hr o ho

theorem find?_isNone_false_iff {α : Type} (p : α → Bool) (l : List α) :
    ((l.find? p).isNone = false) ↔ ∃ x ∈ l, p x = true := by
  induction l with
  | nil => simp [List.find?]
  | cons a l ih =>
    by_cases h : p a
    · simp [List.find?_cons_of_pos _ h, h]
    · rw [List.find?_cons_of_neg _ (by simp [h])]
      simp only [List.mem_cons, ih]
      constructor
      · rintro ⟨x, hx, hpx⟩
        exact ⟨x, Or.inr hx, hpx⟩
      · rintro ⟨x, rfl | hx, hpx⟩
        · simp [hpx] at h
        · exact ⟨x, hx, hpx⟩

theorem mem_existingTags {s : AppState} {T : List OId} {o : OId} :
    o ∈ existingTags s T ↔ o ∈ s.tags.map Prod.fst ∧ o ∈ T := by
  simp [existingTags, List.mem_dedup, List.mem_filter]

theorem existingTags_nodup (s : AppState) (T : List OId) : (existingTags s T).Nodup :=
  List.nodup_dedup _

/-- The existence check of `create_item_tag_association` compares the number
of distinct existing requested tags against the raw length of the request's
list: it passes exactly when the list has no duplicates and every entry is
the id of a stored tag. -/
theorem existingTags_length_eq_iff (s : AppState) (T : List OId) :
    (existingTags s T).length = T.length ↔
      (T.Nodup ∧ ∀ o ∈ T, o ∈ s.tags.map Prod.fst) := by
  constructor
  · intro h
    have hnodupE : (existingTags s T).Nodup := existingTags_nodup s T
    have hsub : existingTags s T ⊆ T.dedup := fun o ho =>
      List.mem_dedup.mpr (mem_existingTags.mp ho).2
    have hsp : (existingTags s T).Subperm T.dedup := hnodupE.subperm hsub
    have h1 : (existingTags s T).length ≤ T.dedup.length := hsp.length_le
    have h2 : T.dedup.length ≤ T.length := (List.dedup_sublist T).length_le
    have hdl : T.dedup.length = T.length := le_antisymm h2 (h ▸ h1)
    have hTd : T.dedup = T := (List.dedup_sublist T).eq_of_length hdl
    have hTnodup : T.Nodup := hTd ▸ List.nodup_dedup T
    have hperm : (existingTags s T).Perm T.dedup :=
      hsp.perm_of_length_le (by rw [h, hdl])
    refine ⟨hTnodup, fun o ho => ?_⟩
    have : o ∈ existingTags s T := hperm.mem_iff.mpr (List.mem_dedup.mpr ho)
    exact (mem_existingTags.mp this).1
  · rintro ⟨hnodup, hsub⟩
    have hperm : (existingTags s T).Perm T := by
      refine List.perm_of_nodup_nodup_toFinset_eq (existingTags_nodup s T) hnodup ?_
      ext o
      simp only [List.mem_toFinset, mem_existingTags]
      exact ⟨fun h => h.2, fun h => ⟨hsub o h, h⟩⟩
    exact hperm.length_eq

/-! ## Case analysis of the association handler -/

/-- Every run of the association handler either fails with an error, leaving
the state untouched, or passes all four checks and performs exactly the one
upsert. -/
theorem assoc_cases (s : AppState) (iid : String) (data : JObj) :
    ((create_item_tag_association s iid data).2 = s ∧
      ∃ st msg, (create_item_tag_association s iid data).1 = AssocResp.err st msg) ∨
    (∃ v vs item_oid tag_oids,
      tagIdsValue data = JVal.arr (v :: vs) ∧
      parseOid iid = some item_oid ∧
      parseTagOids s.nextOid (v :: vs) = some tag_oids ∧
      (s.items.find? (fun it => decide (it.1 = item_oid))).isNone = false ∧
      (existingTags s tag_oids).length = tag_oids.length ∧
      create_item_tag_association s iid data =
        (AssocResp.ok "Tags associated with item" iid (tag_oids.map formatOid),
         { s with item_tags := upsertItemTags s.item_tags item_oid tag_oids })) := by
  unfold create_item_tag_association
  split
  · exact Or.inl ⟨rfl, _, _, rfl⟩
  · rename_i v vs heqv
    split
    · exact Or.inl ⟨rfl, _, _, rfl⟩
    · rename_i item_oid heqp
      split
      · exact Or.inl ⟨rfl, _, _, rfl⟩
      · rename_i tag_oids heqt
        split
        · exact Or.inl ⟨rfl, _, _, rfl⟩
        · rename_i hfind
          split
          · exact Or.inl ⟨rfl, _, _, rfl⟩
          · rename_i hlen
            refine Or.inr ⟨v, vs, item_oid, tag_oids, heqv, heqp, heqt, ?_,
              not_ne_iff.mp hlen, rfl⟩
            simpa using hfind
  · exact Or.inl ⟨rfl, _, _, rfl⟩

/-- A request rejected by `create_item_tag_association` leaves the database
exactly as it was. -/
theorem assoc_err_state (s : AppState) (iid : String) (data : JObj)
    {st : Nat} {msg : String}
    (h : (create_item_tag_association s iid data).1 = AssocResp.err st msg) :
    (create_item_tag_association s iid data).2 = s := by
  rcases assoc_cases s iid data with ⟨h2, _⟩ | ⟨_, _, _, _, _, _, _, _, _, heq⟩
  · exact h2
  · rw [heq] at h
    exact absurd h (by simp)

/-- Inversion of a successful `create_item_tag_association` run: all four
checks passed and the result is the single upsert. -/
theorem assoc_ok_inv (s : AppState) (iid : String) (data : JObj)
    {m i : String} {ts : List String}
    (h : (create_item_tag_association s iid data).1 = AssocResp.ok m i ts) :
    ∃ v vs item_oid tag_oids,
      tagIdsValue data = JVal.arr (v :: vs) ∧
      parseOid iid = some item_oid ∧
      parseTagOids s.nextOid (v :: vs) = some tag_oids ∧
      (s.items.find? (fun it => decide (it.1 = item_oid))).isNone = false ∧
      (existingTags s tag_oids).length = tag_oids.length ∧
      m = "Tags associated with item" ∧ i = iid ∧ ts = tag_oids.map formatOid ∧
      (create_item_tag_association s iid data).2 =
        { s with item_tags := upsertItemTags s.item_tags item_oid tag_oids } := by
  rcases assoc_cases s iid data with ⟨_, st, msg, herr⟩ |
    ⟨v, vs, item_oid, tag_oids, h1, h2, h3, h4, h5, heq⟩
  · rw [herr] at h
    exact absurd h (by simp)
  · rw [heq] at h
    injection h with hm hi hts
    exact ⟨v, vs, item_oid, tag_oids, h1, h2, h3, h4, h5, hm.symm, hi.symm, hts.symm,
      by rw [heq]⟩

/-- Forward construction: when all four checks pass, the handler succeeds
and upserts. -/
theorem assoc_eq_success (s : AppState) (iid : String) (data : JObj)
    {v : JVal} {vs : List JVal} {item_oid : OId} {tag_oids : List OId}
    (hshape : tagIdsValue data = JVal.arr (v :: vs))
    (hparse : parseOid iid = some item_oid)
    (htags : parseTagOids s.nextOid (v :: vs) = some tag_oids)
    (hfind : (s.items.find? (fun it => decide (it.1 = item_oid))).isNone = false)
    (hlen : (existingTags s tag_oids).length = tag_oids.length) :
    create_item_tag_association s iid data =
      (AssocResp.ok "Tags associated with item" iid (tag_oids.map formatOid),
       { s with item_tags := upsertItemTags s.item_tags item_oid tag_oids }) := by
  unfold create_item_tag_association
  simp only [hshape, hparse, htags, hfind]
  rw [if_neg (by simp), if_neg (not_ne_iff.mpr hlen)]

/-- No run of the association handler touches the `items` or `tags`
collections or the id generator. -/
theorem assoc_frame (s : AppState) (iid : String) (data : JObj) :
    (create_item_tag_association s iid data).2.items = s.items ∧
    (create_item_tag_association s iid data).2.tags = s.tags ∧
    (create_item_tag_association s iid data).2.nextOid = s.nextOid := by
  rcases assoc_cases s iid data with ⟨h2, _⟩ | ⟨_, _, _, _, _, _, _, _, _, heq⟩
  · rw [h2]
    exact ⟨rfl, rfl, rfl⟩
  · rw [heq]
    exact ⟨rfl, rfl, rfl⟩

/-- Shape failure: a missing, non-array or empty `tag_ids` field yields the
400 "tag_ids must be a non-empty list" response at once. -/
theorem assoc_eq_invalidInput (s : AppState) (iid : String) (data : JObj)
    (h : ∀ v vs, tagIdsValue data ≠ JVal.arr (v :: vs)) :
    create_item_tag_association s iid data =
      (AssocResp.err 400 "tag_ids must be a non-empty list", s) := by
  unfold create_item_tag_association
  split
  · rfl
  · rename_i v vs heqv
    exact absurd heqv (h v vs)
  · rfl

/-- Identifier failure: with a well-shaped `tag_ids`, any ObjectId parse
failure yields the 400 "Invalid ObjectId in item_id or tag_ids" response. -/
theorem assoc_eq_invalidOid (s : AppState) (iid : String) (data : JObj)
    {v : JVal} {vs : List JVal}
    (hshape : tagIdsValue data = JVal.arr (v :: vs))
    (h : parseOid iid = none ∨ parseTagOids s.nextOid (v :: vs) = none) :
    create_item_tag_association s iid data =
      (AssocResp.err 400 "Invalid ObjectId in item_id or tag_ids", s) := by
  unfold create_item_tag_association
  rcases h with h | h
  · simp only [hshape, h]
  · rcases hp : parseOid iid with _ | io
    · simp only [hshape, hp]
    · simp only [hshape, hp, h]

/-- Item check failure: with parses succeeding, a missing item yields the
404 "Item not found.." response. -/
theorem assoc_eq_itemNotFound (s : AppState) (iid : String) (data : JObj)
    {v : JVal} {vs : List JVal} {item_oid : OId} {tag_oids : List OId}
    (hshape : tagIdsValue data = JVal.arr (v :: vs))
    (hparse : parseOid iid = some item_oid)
    (htags : parseTagOids s.nextOid (v :: vs) = some tag_oids)
    (hfind : (s.items.find? (fun it => decide (it.1 = item_oid))).isNone = true) :
    create_item_tag_association s iid data = (AssocResp.err 404 "Item not found..", s) := by
  unfold create_item_tag_association
  simp only [hshape, hparse, htags, hfind]
  rw [if_pos trivial]

/-- Tag check failure: with the item existing, a failing set-cardinality
comparison yields the 404 "One or more tag_ids not found" response. -/
theorem assoc_eq_tagsNotFound (s : AppState) (iid : String) (data : JObj)
    {v : JVal} {vs : List JVal} {item_oid : OId} {tag_oids : List OId}
    (hshape : tagIdsValue data = JVal.arr (v :: vs))
    (hparse : parseOid iid = some item_oid)
    (htags : parseTagOids s.nextOid (v :: vs) = some tag_oids)
    (hfind : (s.items.find? (fun it => decide (it.1 = item_oid))).isNone = false)
    (hlen : (existingTags s tag_oids).length ≠ tag_oids.length) :
    create_item_tag_association s iid data =
      (AssocResp.err 404 "One or more tag_ids not found", s) := by
  unfold create_item_tag_association
  simp only [hshape, hparse, htags, hfind]
  rw [if_neg (by simp), if_pos hlen]

/-- The GET tags-for-item handler never modifies the database. -/
theorem tagsFor_state (s : AppState) (iid : String) : (get_tags_for_item s iid).2 = s := by
  unfold get_tags_for_item
  split
  · rfl
  · split
    · rfl
    · split <;> rfl

/-! ## The reachable-state invariant -/

/-- Structural invariant of the database: generated ids are below the
counter and unique per collection, at most one association record exists
per item, and every referenced tag id belongs to a stored tag document. -/
structure Inv (s : AppState) : Prop where
  items_lt : ∀ o ∈ s.items.map Prod.fst, o < s.nextOid
  tags_lt : ∀ o ∈ s.tags.map Prod.fst, o < s.nextOid
  items_nodup : (s.items.map Prod.fst).Nodup
  tags_nodup : (s.tags.map Prod.fst).Nodup
  keys_nodup : (s.item_tags.map ItemTagRec.item_id).Nodup
  refs_exist : ∀ r ∈ s.item_tags, ∀ o ∈ r.tag_ids, o ∈ s.tags.map Prod.fst

theorem inv_step {s s' : AppState} (hstep : Step s s') (hi : Inv s) : Inv s' := by
  cases hstep with
  | createItem data =>
    rcases data with _ | d
    · exact hi
    · rcases d with _ | ⟨kv, rest⟩
      · exact hi
      · refine ⟨?_, ?_, ?_, hi.tags_nodup, hi.keys_nodup, hi.refs_exist⟩
        · intro o ho
          simp only [create_item, List.map_append, List.mem_append, List.map_cons,
            List.map_nil, List.mem_singleton] at ho
          rcases ho with ho | rfl
          · exact Nat.lt_succ_of_lt (hi.items_lt o ho)
          · exact Nat.lt_succ_self _
        · intro o ho
          exact Nat.lt_succ_of_lt (hi.tags_lt o ho)
        · simp only [create_item, List.map_append, List.map_cons, List.map_nil]
          refine hi.items_nodup.append (List.nodup_singleton _) ?_
          intro o ho ho2
          simp only [List.mem_singleton] at ho2
          subst ho2
          exact absurd (hi.items_lt _ ho) (lt_irrefl _)
  | createTag data =>
    rcases data with _ | d
    · exact hi
    · rcases d with _ | ⟨kv, rest⟩
      · exact hi
      · refine ⟨?_, ?_, hi.items_nodup, ?_, hi.keys_nodup, ?_⟩
        · intro o ho
          exact Nat.lt_succ_of_lt (hi.items_lt o ho)
        · intro o ho
          simp only [create_tag, List.map_append, List.mem_append, List.map_cons,
            List.map_nil, List.mem_singleton] at ho
          rcases ho with ho | rfl
          · exact Nat.lt_succ_of_lt (hi.tags_lt o ho)
          · exact Nat.lt_succ_self _
        · simp only [create_tag, List.map_append, List.map_cons, List.map_nil]
          refine hi.tags_nodup.append (List.nodup_singleton _) ?_
          intro o ho ho2
          simp only [List.mem_singleton] at ho2
          subst ho2
          exact absurd (hi.tags_lt _ ho) (lt_irrefl _)
        · intro r hr o ho
          simp only [create_tag, List.map_append, List.mem_append]
          exact Or.inl (hi.refs_exist r hr o ho)
  | listItems => exact hi
  | listTags => exact hi
  | tagsFor iid =>
    rw [tagsFor_state]
    exact hi
  | assoc iid data =>
    rcases assoc_cases s iid data with ⟨h2, _⟩ | ⟨v, vs, iOid, tOids, h1, h2, h3, h4, h5, heq⟩
    · rw [h2]
      exact hi
    · rw [heq]
      have hex : tOids.Nodup ∧ ∀ o ∈ tOids, o ∈ s.tags.map Prod.fst :=
        (existingTags_length_eq_iff s tOids).mp h5
      refine ⟨hi.items_lt, hi.tags_lt, hi.items_nodup, hi.tags_nodup, ?_, ?_⟩
      · show ((upsertItemTags s.item_tags iOid tOids).map ItemTagRec.item_id).Nodup
        rw [upsert_keys]
        by_cases hm : iOid ∈ s.item_tags.map ItemTagRec.item_id
        · rw [if_pos hm]
          exact hi.keys_nodup
        · rw [if_neg hm]
          refine hi.keys_nodup.append (List.nodup_singleton _) ?_
          intro o ho ho2
          simp only [List.mem_singleton] at ho2
          subst ho2
          exact hm ho
      · exact upsert_refs hi.refs_exist hex.2

/-- Every reachable database state satisfies the structural invariant. -/
theorem reachable_inv {s : AppState} (h : Reachable s) : Inv s := by
  induction h with
  | refl =>
    exact ⟨by simp [initState], by simp [initState], by simp [initState],
      by simp [initState], by simp [initState], by simp [initState]⟩
  | tail _ hstep ih => exact inv_step hstep ih

theorem upsert_idem (l : List ItemTagRec) (i : OId) (t : List OId) :
    upsertItemTags (upsertItemTags l i t) i t = upsertItemTags l i t := by
  induction l with
  | nil =>
    show upsertItemTags [⟨i, addToSetEach [] t⟩] i t = [⟨i, addToSetEach [] t⟩]
    rw [upsertItemTags, if_pos rfl, addToSetEach_idem]
  | cons r rs ih =>
    by_cases h : r.item_id = i
    · rw [upsertItemTags, if_pos h, upsertItemTags, if_pos h, addToSetEach_idem]
    · rw [upsertItemTags, if_neg h, upsertItemTags, if_neg h, ih]

theorem mem_upsert {l : List ItemTagRec} {i : OId} {t : List OId} {r : ItemTagRec}
    (h : r ∈ upsertItemTags l i t) : r ∈ l ∨ r.item_id = i := by
  induction l with
  | nil =>
    simp only [upsertItemTags, List.mem_singleton] at h
    subst h
    exact Or.inr rfl
  | cons r0 rs ih =>
    by_cases h0 : r0.item_id = i
    · rw [upsertItemTags, if_pos h0] at h
      rcases List.mem_cons.mp h with rfl | hmem
      · exact Or.inr h0
      · exact Or.inl (List.mem_cons.mpr (Or.inr hmem))
    · rw [upsertItemTags, if_neg h0] at h
      rcases List.mem_cons.mp h with rfl | hmem
      · exact Or.inl (List.mem_cons.mpr (Or.inl rfl))
      · rcases ih hmem with hl | hr
        · exact Or.inl (List.mem_cons.mpr (Or.inr hl))
        · exact Or.inr hr

/-! ## Concrete sample states, built by the handlers themselves -/

/-- A sample tag payload. -/
def tagPayload : JObj := [("name", JVal.str "fiction")]

/-- A sample item payload. -/
def itemPayload : JObj := [("item_title", JVal.str "Book"), ("item_type", JVal.str "physical")]

/-- One tag created (id 0). -/
def stateA : AppState := (create_tag initState (some tagPayload)).2

/-- Two tags created (ids 0, 1). -/
def stateB : AppState := (create_tag stateA (some tagPayload)).2

/-- Two tags and one item created (item id 2). -/
def stateC : AppState := (create_item stateB (some itemPayload)).2

/-- External form of tag id 0. -/
def tag0Str : String := formatOid 0

/-- External form of tag id 1. -/
def tag1Str : String := formatOid 1

/-- External form of item id 2. -/
def item2Str : String := formatOid 2

/-- A request body `{"tag_ids": [...]}` with string entries. -/
def tagIdsBody (ss : List String) : JObj :=
  [("tag_ids", JVal.arr (ss.map JVal.str))]

/-- `stateC` after associating tag 0 with item 2. -/
def stateD : AppState := (create_item_tag_association stateC item2Str (tagIdsBody [tag0Str])).2

theorem reachable_stateC : Reachable stateC :=
  Relation.ReflTransGen.tail
    (Relation.ReflTransGen.tail
      (Relation.ReflTransGen.tail Relation.ReflTransGen.refl
        (Step.createTag initState (some tagPayload)))
      (Step.createTag stateA (some tagPayload)))
    (Step.createItem stateB (some itemPayload))

theorem reachable_stateD : Reachable stateD :=
  Relation.ReflTransGen.tail reachable_stateC
    (Step.assoc stateC item2Str (tagIdsBody [tag0Str]))

/-! ## The claims -/

/-- C2: `associate` fails with InvalidInput (HTTP 400, message "tag_ids must
be a non-empty list") if and only if the `tag_ids` field of the request body
is missing, not an array, or an empty array.  The equivalence holds for every
database state and every `item_id` (including unparsable ones), so the check
takes priority over identifier parsing and storage access. -/
theorem claim2_assoc_invalidInput_iff (s : AppState) (iid : String) (data : JObj) :
    (create_item_tag_association s iid data).1 =
        AssocResp.err 400 "tag_ids must be a non-empty list" ↔
      (jGet data "tag_ids" = none ∨ jGet data "tag_ids" = some (JVal.arr []) ∨
        ∃ w, jGet data "tag_ids" = some w ∧ ∀ l, w ≠ JVal.arr l) := by
  constructor
  · intro h
    rcases hj : jGet data "tag_ids" with _ | w
    · exact Or.inl rfl
    · have hv : tagIdsValue data = w := by simp [tagIdsValue, hj]
      rcases w with _ | b | n | sv | elems | flds
      · exact Or.inr (Or.inr ⟨_, rfl, fun l hl => JVal.noConfusion hl⟩)
      · exact Or.inr (Or.inr ⟨_, rfl, fun l hl => JVal.noConfusion hl⟩)
      · exact Or.inr (Or.inr ⟨_, rfl, fun l hl => JVal.noConfusion hl⟩)
      · exact Or.inr (Or.inr ⟨_, rfl, fun l hl => JVal.noConfusion hl⟩)
      · rcases elems with _ | ⟨v, vs⟩
        · exact Or.inr (Or.inl rfl)
        · exfalso
          rcases hp : parseOid iid with _ | io
          · rw [assoc_eq_invalidOid s iid data hv (Or.inl hp)] at h
            exact absurd (by injection h) (by decide)
          · rcases ht : parseTagOids s.nextOid (v :: vs) with _ | tOids
            · rw [assoc_eq_invalidOid s iid data hv (Or.inr ht)] at h
              exact absurd (by injection h) (by decide)
            · rcases hf : (s.items.find? (fun it => decide (it.1 = io))).isNone with _ | _
              · by_cases hlen : (existingTags s tOids).length ≠ tOids.length
                · rw [assoc_eq_tagsNotFound s iid data hv hp ht hf hlen] at h
                  exact absurd (by injection h) (by decide)
                · rw [assoc_eq_success s iid data hv hp ht hf (not_ne_iff.mp hlen)] at h
                  exact AssocResp.noConfusion h
              · rw [assoc_eq_itemNotFound s iid data hv hp ht hf] at h
                exact absurd (by injection h) (by decide)
      · exact Or.inr (Or.inr ⟨_, rfl, fun l hl => JVal.noConfusion hl⟩)
  · intro h
    have hbad : ∀ v vs, tagIdsValue data ≠ JVal.arr (v :: vs) := by
      rcases h with h | h | ⟨w, hw, hne⟩
      · intro v vs hcon
        rw [tagIdsValue, h] at hcon
        simp at hcon
      · intro v vs hcon
        rw [tagIdsValue, h] at hcon
        simp at hcon
      · intro v vs hcon
        rw [tagIdsValue, hw] at hcon
        exact hne _ hcon
    rw [assoc_eq_invalidInput s iid data hbad]

/-- C4: `associate` is idempotent — a second call with the same request, on
the state produced by a successful first call, returns the same response and
leaves the state (in particular the stored association record) exactly as
after the first call. -/
theorem claim4_assoc_idempotent (s : AppState) (iid : String) (data : JObj)
    (m i : String) (ts : List String)
    (h : (create_item_tag_association s iid data).1 = AssocResp.ok m i ts) :
    create_item_tag_association (create_item_tag_association s iid data).2 iid data =
      ((create_item_tag_association s iid data).1,
       (create_item_tag_association s iid data).2) := by
  obtain ⟨v, vs, io, tOids, h1, h2, h3, h4, h5, hm, hi, hts, hstate⟩ :=
    assoc_ok_inv s iid data h
  have h3' : parseTagOids (create_item_tag_association s iid data).2.nextOid (v :: vs) =
      some tOids := by
    rw [hstate]
    exact h3
  have h4' : ((create_item_tag_association s iid data).2.items.find?
      (fun it => decide (it.1 = io))).isNone = false := by
    rw [hstate]
    exact h4
  have h5' : (existingTags (create_item_tag_association s iid data).2 tOids).length =
      tOids.length := by
    rw [hstate]
    exact h5
  have hsucc := assoc_eq_success (create_item_tag_association s iid data).2 iid data
    h1 h2 h3' h4' h5'
  rw [hsucc, h, hm, hi, hts, hstate]
  simp [upsert_idem]

/-- C7: for both the item store and the tag store, `create` fails with
EmptyPayload (HTTP 400, "No data provided") if and only if the payload is
absent or the empty object; any non-empty payload — with no schema
validation of `item_title`, `item_type` or `name` — is inserted verbatim
under the newly generated identifier, which is returned in external form. -/
theorem claim7_create_emptyPayload_iff (s : AppState) (data : Option JObj) :
    ((create_item s data).1 = CreateResp.err 400 "No data provided" ↔
      (data = none ∨ data = some [])) ∧
    ((create_tag s data).1 = CreateResp.err 400 "No data provided" ↔
      (data = none ∨ data = some [])) ∧
    (∀ kv rest, data = some (kv :: rest) →
      create_item s data =
        (CreateResp.ok 201 (formatOid s.nextOid),
         { s with items := s.items ++ [(s.nextOid, kv :: rest)],
                  nextOid := s.nextOid + 1 }) ∧
      create_tag s data =
        (CreateResp.ok 200 (formatOid s.nextOid),
         { s with tags := s.tags ++ [(s.nextOid, kv :: rest)],
                  nextOid := s.nextOid + 1 })) := by
  rcases data with _ | (_ | ⟨kv0, rest0⟩)
  · refine ⟨by simp [create_item], by simp [create_tag], ?_⟩
    intro kv rest hcon
    exact Option.noConfusion hcon
  · refine ⟨by simp [create_item], by simp [create_tag], ?_⟩
    intro kv rest hcon
    simp at hcon
  · refine ⟨by simp [create_item], by simp [create_tag], ?_⟩
    intro kv rest hcon
    injection hcon with hcon
    injection hcon with hkv hrest
    subst hkv
    subst hrest
    exact ⟨rfl, rfl⟩

/-- C8: referential integrity — in every reachable state, every tag id
stored in an association record is the id of an existing Tag document.
Since no operation ever removes a tag, existence now coincides with
existence at the moment the id was added (the existence check precedes the
upsert on every path). -/
theorem claim8_referential_integrity (s : AppState) (h : Reachable s) :
    ∀ r ∈ s.item_tags, ∀ o ∈ r.tag_ids, ∃ d, (o, d) ∈ s.tags := by
  intro r hr o ho
  have hmem := (reachable_inv h).refs_exist r hr o ho
  rcases List.mem_map.mp hmem with ⟨⟨o2, d⟩, hmem2, heq⟩
  refine ⟨d, ?_⟩
  have : o2 = o := heq
  rwa [this] at hmem2

/-- C9: error atomicity of `associate` — whenever the handler returns any
error response, the items, tags and item_tags collections are all exactly
as they were before the call. -/
theorem claim9_assoc_error_atomic (s : AppState) (iid : String) (data : JObj)
    (st : Nat) (msg : String)
    (h : (create_item_tag_association s iid data).1 = AssocResp.err st msg) :
    (create_item_tag_association s iid data).2.items = s.items ∧
    (create_item_tag_association s iid data).2.tags = s.tags ∧
    (create_item_tag_association s iid data).2.item_tags = s.item_tags := by
  rw [assoc_err_state s iid data h]
  exact ⟨rfl, rfl, rfl⟩

/-- C10: frame property — the three read handlers return the state
unchanged, and a successful `associate` leaves the items and tags
collections untouched and modifies `item_tags` only at the record keyed by
the parsed item id: records of other items are exactly preserved, and every
record of the new state is either an old record or the one for this item. -/
theorem claim10_frame (s : AppState) (iid : String) :
    (list_items s).2 = s ∧ (list_tags s).2 = s ∧ (get_tags_for_item s iid).2 = s ∧
    (∀ data m i ts item_oid,
      (create_item_tag_association s iid data).1 = AssocResp.ok m i ts →
      parseOid iid = some item_oid →
      (create_item_tag_association s iid data).2.items = s.items ∧
      (create_item_tag_association s iid data).2.tags = s.tags ∧
      (create_item_tag_association s iid data).2.item_tags.filter
          (fun r => decide (¬ r.item_id = item_oid)) =
        s.item_tags.filter (fun r => decide (¬ r.item_id = item_oid)) ∧
      ∀ r ∈ (create_item_tag_association s iid data).2.item_tags,
        r ∈ s.item_tags ∨ r.item_id = item_oid) := by
  refine ⟨rfl, rfl, tagsFor_state s iid, ?_⟩
  intro data m i ts item_oid h hparse
  obtain ⟨v, vs, io, tOids, h1, h2, h3, h4, h5, hm, hi, hts, hstate⟩ :=
    assoc_ok_inv s iid data h
  have hio : io = item_oid := by
    rw [h2] at hparse
    exact Option.some.inj hparse
  subst hio
  rw [hstate]
  exact ⟨rfl, rfl, upsert_filter_ne s.item_tags io tOids,
    fun r hr => mem_upsert hr⟩

/-! ## Support for the union-accumulation and tagsFor claims -/

theorem tagIdsValue_tagIdsBody (ss : List String) :
    tagIdsValue (tagIdsBody ss) = JVal.arr (ss.map JVal.str) := by
  simp [tagIdsValue, tagIdsBody, jGet, List.find?]

theorem parseTagOids_single (fresh : OId) (sa : String) (a : OId) (h : parseOid sa = some a) :
    parseTagOids fresh [JVal.str sa] = some [a] := by
  simp [parseTagOids, oidOfJVal, h]

theorem addToSetEach_nil_single (a : OId) : addToSetEach [] [a] = [a] := by
  simp [addToSetEach, addToSet]

theorem addToSetEach_single_pair (a b : OId) :
    (addToSetEach [a] [b]).toFinset = {a, b} := by
  by_cases h : b = a
  · subst h
    simp [addToSetEach, addToSet]
  · simp [addToSetEach, addToSet, h]

theorem items_find_of_mem {s : AppState} {i : OId} (h : i ∈ s.items.map Prod.fst) :
    (s.items.find? (fun it => decide (it.1 = i))).isNone = false := by
  rcases List.mem_map.mp h with ⟨x, hx, hfst⟩
  exact (find?_isNone_false_iff _ _).mpr ⟨x, hx, by simp [hfst]⟩

theorem existingTags_single {s : AppState} {a : OId} (h : a ∈ s.tags.map Prod.fst) :
    (existingTags s [a]).length = ([a] : List OId).length :=
  (existingTags_length_eq_iff s [a]).mpr
    ⟨List.nodup_singleton a, fun o ho => by
      rw [List.mem_singleton.mp ho]
      exact h⟩

theorem filter_key_length_le_one {l : List ItemTagRec}
    (h : (l.map ItemTagRec.item_id).Nodup) (i : OId) :
    (l.filter (fun r => decide (r.item_id = i))).length ≤ 1 := by
  induction l with
  | nil => simp
  | cons r rs ih =>
    simp only [List.map_cons, List.nodup_cons] at h
    by_cases hr : r.item_id = i
    · rw [List.filter_cons_of_pos (by simp [hr])]
      have hnil : rs.filter (fun r => decide (r.item_id = i)) = [] := by
        refine List.filter_eq_nil_iff.mpr fun a ha => ?_
        simp only [decide_eq_true_eq]
        intro hcon
        exact h.1 (List.mem_map.mpr ⟨a, ha, by rw [hcon, hr]⟩)
      simp [hnil]
    · rw [List.filter_cons_of_neg (by simp [hr])]
      exact ih h.2

/-- C5: `associate` is union-accumulating — starting from any reachable
state in which item `i` and tags `a`, `b` exist and `i` has no association
record yet, associating `{a}` and then `{b}` succeeds both times and leaves
exactly one association record for `i`, whose tag-id set is `{a, b}`; the
items and tags collections are untouched. -/
theorem claim5_assoc_union_accumulating (s : AppState) (hreach : Reachable s)
    (si sa sb : String) (i a b : OId)
    (hpi : parseOid si = some i) (hpa : parseOid sa = some a) (hpb : parseOid sb = some b)
    (hitem : i ∈ s.items.map Prod.fst)
    (hta : a ∈ s.tags.map Prod.fst) (htb : b ∈ s.tags.map Prod.fst)
    (hnew : s.item_tags.find? (fun r => decide (r.item_id = i)) = none) :
    (create_item_tag_association s si (tagIdsBody [sa])).1 =
        AssocResp.ok "Tags associated with item" si [formatOid a] ∧
    (create_item_tag_association
        (create_item_tag_association s si (tagIdsBody [sa])).2 si (tagIdsBody [sb])).1 =
        AssocResp.ok "Tags associated with item" si [formatOid b] ∧
    ((create_item_tag_association
        (create_item_tag_association s si (tagIdsBody [sa])).2 si
        (tagIdsBody [sb])).2.item_tags.filter
          (fun r => decide (r.item_id = i))).length = 1 ∧
    ((create_item_tag_association
        (create_item_tag_association s si (tagIdsBody [sa])).2 si
        (tagIdsBody [sb])).2.item_tags.find?
          (fun r => decide (r.item_id = i))).map (fun r => r.tag_ids.toFinset) =
        some {a, b} ∧
    (create_item_tag_association
        (create_item_tag_association s si (tagIdsBody [sa])).2 si
        (tagIdsBody [sb])).2.items = s.items ∧
    (create_item_tag_association
        (create_item_tag_association s si (tagIdsBody [sa])).2 si
        (tagIdsBody [sb])).2.tags = s.tags := by
  have hshapeA : tagIdsValue (tagIdsBody [sa]) = JVal.arr (JVal.str sa :: []) :=
    tagIdsValue_tagIdsBody [sa]
  have hshapeB : tagIdsValue (tagIdsBody [sb]) = JVal.arr (JVal.str sb :: []) :=
    tagIdsValue_tagIdsBody [sb]
  have eqA := assoc_eq_success s si (tagIdsBody [sa]) hshapeA hpi
    (parseTagOids_single s.nextOid sa a hpa) (items_find_of_mem hitem)
    (existingTags_single hta)
  have hs1 : (create_item_tag_association s si (tagIdsBody [sa])).2 =
      { s with item_tags := upsertItemTags s.item_tags i [a] } := by
    rw [eqA]
  have hfindB : (((create_item_tag_association s si
      (tagIdsBody [sa])).2).items.find? (fun it => decide (it.1 = i))).isNone = false := by
    rw [hs1]
    exact items_find_of_mem hitem
  have hlenB : (existingTags (create_item_tag_association s si (tagIdsBody [sa])).2
      [b]).length = ([b] : List OId).length := by
    rw [hs1]
    exact existingTags_single htb
  have eqB := assoc_eq_success (create_item_tag_association s si (tagIdsBody [sa])).2 si
    (tagIdsBody [sb]) hshapeB hpi
    (parseTagOids_single _ sb b hpb) hfindB hlenB
  have hs2 : (create_item_tag_association
      (create_item_tag_association s si (tagIdsBody [sa])).2 si (tagIdsBody [sb])).2 =
      { s with item_tags :=
          upsertItemTags (upsertItemTags s.item_tags i [a]) i [b] } := by
    rw [eqB, hs1]
  have hfind2 : (create_item_tag_association
      (create_item_tag_association s si (tagIdsBody [sa])).2 si
      (tagIdsBody [sb])).2.item_tags.find? (fun r => decide (r.item_id = i)) =
      some ⟨i, addToSetEach [a] [b]⟩ := by
    rw [hs2]
    show (upsertItemTags (upsertItemTags s.item_tags i [a]) i [b]).find?
      (fun r => decide (r.item_id = i)) = some ⟨i, addToSetEach [a] [b]⟩
    rw [find?_upsert_self]
    have h1 : assocTagsOf (upsertItemTags s.item_tags i [a]) i = [a] := by
      rw [assocTagsOf, find?_upsert_self]
      show addToSetEach (assocTagsOf s.item_tags i) [a] = [a]
      rw [assocTagsOf, hnew, addToSetEach_nil_single]
    rw [h1]
  have hreach2 : Reachable (create_item_tag_association
      (create_item_tag_association s si (tagIdsBody [sa])).2 si (tagIdsBody [sb])).2 :=
    Relation.ReflTransGen.tail
      (Relation.ReflTransGen.tail hreach (Step.assoc s si (tagIdsBody [sa])))
      (Step.assoc (create_item_tag_association s si (tagIdsBody [sa])).2 si
        (tagIdsBody [sb]))
  refine ⟨by rw [eqA]; rfl, by rw [eqB]; rfl, ?_, ?_, by rw [hs2], by rw [hs2]⟩
  · have hle := filter_key_length_le_one (reachable_inv hreach2).keys_nodup i
    have hmem : (⟨i, addToSetEach [a] [b]⟩ : ItemTagRec) ∈
        (create_item_tag_association
          (create_item_tag_association s si (tagIdsBody [sa])).2 si
          (tagIdsBody [sb])).2.item_tags.filter (fun r => decide (r.item_id = i)) :=
      List.mem_filter.mpr ⟨List.mem_of_find?_eq_some hfind2, by simp⟩
    exact le_antisymm hle (List.length_pos_of_mem hmem)
  · rw [hfind2]
    exact congrArg some (addToSetEach_single_pair a b)

/-- The four outcomes of the tags-for-item handler, as equations. -/
theorem tagsFor_eq_invalid (s : AppState) (iid : String) (h : parseOid iid = none) :
    get_tags_for_item s iid = (TagsForResp.err 400 "Invalid item_id", s) := by
  unfold get_tags_for_item
  simp only [h]

theorem tagsFor_eq_noRecord (s : AppState) (iid : String) {io : OId}
    (hp : parseOid iid = some io)
    (h : s.item_tags.find? (fun r => decide (r.item_id = io)) = none) :
    get_tags_for_item s iid = (TagsForResp.ok 200 [], s) := by
  unfold get_tags_for_item
  simp only [hp, h]

theorem tagsFor_eq_emptyRecord (s : AppState) (iid : String) {io : OId} {rec : ItemTagRec}
    (hp : parseOid iid = some io)
    (h : s.item_tags.find? (fun r => decide (r.item_id = io)) = some rec)
    (hnil : rec.tag_ids = []) :
    get_tags_for_item s iid = (TagsForResp.ok 200 [], s) := by
  unfold get_tags_for_item
  simp only [hp, h, hnil]

theorem tagsFor_eq_docs (s : AppState) (iid : String) {io : OId} {rec : ItemTagRec}
    {t : OId} {ts : List OId}
    (hp : parseOid iid = some io)
    (h : s.item_tags.find? (fun r => decide (r.item_id = io)) = some rec)
    (hcons : rec.tag_ids = t :: ts) :
    get_tags_for_item s iid =
      (TagsForResp.ok 200 ((s.tags.filter (fun tg => decide (tg.1 ∈ rec.tag_ids))).map
        (fun tg => (formatOid tg.1, tg.2))), s) := by
  unfold get_tags_for_item
  simp only [hp, h, hcons]

/-- C6: `tagsFor` fails with InvalidIdentifier (HTTP 400) exactly when the
item_id string does not parse; with a parsed id it returns an empty list
with success status 200 — not an error — when no association record exists
or the record's tag set is empty, and otherwise returns the stored Tag
documents of the record's tag ids with identifiers externalized to strings;
in reachable states every tag id of the record contributes its document. -/
theorem claim6_tagsFor_spec (s : AppState) (hreach : Reachable s) (item_id : String) :
    ((get_tags_for_item s item_id).1 = TagsForResp.err 400 "Invalid item_id" ↔
      parseOid item_id = none) ∧
    (∀ item_oid, parseOid item_id = some item_oid →
      (s.item_tags.find? (fun r => decide (r.item_id = item_oid)) = none →
        (get_tags_for_item s item_id).1 = TagsForResp.ok 200 []) ∧
      (∀ rec, s.item_tags.find? (fun r => decide (r.item_id = item_oid)) = some rec →
        (rec.tag_ids = [] → (get_tags_for_item s item_id).1 = TagsForResp.ok 200 []) ∧
        (rec.tag_ids ≠ [] →
          (get_tags_for_item s item_id).1 =
            TagsForResp.ok 200 ((s.tags.filter
              (fun tg => decide (tg.1 ∈ rec.tag_ids))).map
              (fun tg => (formatOid tg.1, tg.2))) ∧
          ∀ t ∈ rec.tag_ids, ∃ d, (t, d) ∈ s.tags ∧
            (formatOid t, d) ∈ (s.tags.filter
              (fun tg => decide (tg.1 ∈ rec.tag_ids))).map
              (fun tg => (formatOid tg.1, tg.2))))) := by
  constructor
  · constructor
    · intro h
      rcases hp : parseOid item_id with _ | io
      · rfl
      · exfalso
        rcases hf : s.item_tags.find? (fun r => decide (r.item_id = io)) with _ | rec
        · rw [tagsFor_eq_noRecord s item_id hp hf] at h
          exact TagsForResp.noConfusion h
        · rcases hl : rec.tag_ids with _ | ⟨t, ts⟩
          · rw [tagsFor_eq_emptyRecord s item_id hp hf hl] at h
            exact TagsForResp.noConfusion h
          · rw [tagsFor_eq_docs s item_id hp hf hl] at h
            exact TagsForResp.noConfusion h
    · intro h
      rw [tagsFor_eq_invalid s item_id h]
  · intro item_oid hp
    constructor
    · intro hf
      rw [tagsFor_eq_noRecord s item_id hp hf]
    · intro rec hf
      constructor
      · intro hnil
        rw [tagsFor_eq_emptyRecord s item_id hp hf hnil]
      · intro hne
        obtain ⟨t0, ts0, hl⟩ := List.exists_cons_of_ne_nil hne
        refine ⟨by rw [tagsFor_eq_docs s item_id hp hf hl], ?_⟩
        · intro t ht
          have hrecmem : rec ∈ s.item_tags := List.mem_of_find?_eq_some hf
          have hex := (reachable_inv hreach).refs_exist rec hrecmem t ht
          rcases List.mem_map.mp hex with ⟨⟨o2, d⟩, hmem2, heq⟩
          have ho2 : o2 = t := heq
          subst ho2
          refine ⟨d, hmem2, List.mem_map.mpr ⟨(o2, d), ?_, rfl⟩⟩
          exact List.mem_filter.mpr ⟨hmem2, by simpa using ht⟩

/-- C1 (amended): with a well-shaped body, successfully parsed identifiers
and an existing item, the TagsNotFound error is returned if and only if the
parsed tag-id list contains a duplicate entry or an id with no stored Tag
document: the handler collapses only the existing side to a set and
compares its cardinality with the raw request list's length, so duplicates
of an existing tag do trigger TagsNotFound. -/
theorem claim1_tagsNotFound_iff (s : AppState) (iid : String) (data : JObj)
    (v : JVal) (vs : List JVal) (item_oid : OId) (tag_oids : List OId)
    (hshape : tagIdsValue data = JVal.arr (v :: vs))
    (hparse : parseOid iid = some item_oid)
    (htags : parseTagOids s.nextOid (v :: vs) = some tag_oids)
    (hfind : (s.items.find? (fun it => decide (it.1 = item_oid))).isNone = false) :
    (create_item_tag_association s iid data).1 =
        AssocResp.err 404 "One or more tag_ids not found" ↔
      ¬ (tag_oids.Nodup ∧ ∀ o ∈ tag_oids, o ∈ s.tags.map Prod.fst) := by
  constructor
  · intro h hgood
    rw [assoc_eq_success s iid data hshape hparse htags hfind
      ((existingTags_length_eq_iff s tag_oids).mpr hgood)] at h
    exact AssocResp.noConfusion h
  · intro hbad
    have hlen : (existingTags s tag_oids).length ≠ tag_oids.length :=
      fun hcon => hbad ((existingTags_length_eq_iff s tag_oids).mp hcon)
    rw [assoc_eq_tagsNotFound s iid data hshape hparse htags hfind hlen]

/-- C1 counterexample: in the (reachable) state with tags 0 and 1 and item
2, the request associating `[tag0, tag0]` — duplicate entries of an
existing tag, with every distinct requested tag existing — is rejected with
the 404 "One or more tag_ids not found" error, contradicting the claim that
such a request does not fail with TagsNotFound. -/
theorem claim1_counterexample :
    parseOid item2Str = some 2 ∧
    parseTagOids stateC.nextOid [JVal.str tag0Str, JVal.str tag0Str] = some [0, 0] ∧
    ([0, 0] : List OId).dedup = [0] ∧
    (0 : OId) ∈ stateC.tags.map Prod.fst ∧
    (stateC.items.find? (fun it => decide (it.1 = 2))).isNone = false ∧
    (create_item_tag_association stateC item2Str (tagIdsBody [tag0Str, tag0Str])).1 =
      AssocResp.err 404 "One or more tag_ids not found" :=
  ⟨rfl, rfl, rfl, by decide, rfl, rfl⟩

/-- C3 (amended): `associate`'s error is determined by a fixed check order
— InvalidInput on a bad `tag_ids` shape first, then InvalidIdentifier on
any identifier parse failure (with one fixed message that does not identify
the failing field), then ItemNotFound, then TagsNotFound; once an earlier
check fails its error is returned regardless of later conditions. -/
theorem claim3_check_order (s : AppState) (iid : String) (data : JObj) :
    ((∀ v vs, tagIdsValue data ≠ JVal.arr (v :: vs)) →
      (create_item_tag_association s iid data).1 =
        AssocResp.err 400 "tag_ids must be a non-empty list") ∧
    (∀ v vs, tagIdsValue data = JVal.arr (v :: vs) →
      (parseOid iid = none ∨ parseTagOids s.nextOid (v :: vs) = none) →
      (create_item_tag_association s iid data).1 =
        AssocResp.err 400 "Invalid ObjectId in item_id or tag_ids") ∧
    (∀ v vs item_oid tag_oids, tagIdsValue data = JVal.arr (v :: vs) →
      parseOid iid = some item_oid →
      parseTagOids s.nextOid (v :: vs) = some tag_oids →
      (s.items.find? (fun it => decide (it.1 = item_oid))).isNone = true →
      (create_item_tag_association s iid data).1 =
        AssocResp.err 404 "Item not found..") ∧
    (∀ v vs item_oid tag_oids, tagIdsValue data = JVal.arr (v :: vs) →
      parseOid iid = some item_oid →
      parseTagOids s.nextOid (v :: vs) = some tag_oids →
      (s.items.find? (fun it => decide (it.1 = item_oid))).isNone = false →
      (existingTags s tag_oids).length ≠ tag_oids.length →
      (create_item_tag_association s iid data).1 =
        AssocResp.err 404 "One or more tag_ids not found") := by
  refine ⟨?_, ?_, ?_, ?_⟩
  · intro hb
    rw [assoc_eq_invalidInput s iid data hb]
  · intro v vs h1 h2
    rw [assoc_eq_invalidOid s iid data h1 h2]
  · intro v vs io tO h1 h2 h3 h4
    rw [assoc_eq_itemNotFound s iid data h1 h2 h3 h4]
  · intro v vs io tO h1 h2 h3 h4 h5
    rw [assoc_eq_tagsNotFound s iid data h1 h2 h3 h4 h5]

/-- C3 counterexample: the invalid-identifier error does not report which
field failed — a request with a malformed `item_id` (and a well-formed tag
entry) and a request with a well-formed `item_id` (and a malformed tag
entry) produce the identical fixed error response. -/
theorem claim3_counterexample :
    parseOid "bad" = none ∧
    parseOid item2Str = some 2 ∧
    parseOid tag0Str = some 0 ∧
    (create_item_tag_association stateC "bad" (tagIdsBody [tag0Str])).1 =
      (create_item_tag_association stateC item2Str (tagIdsBody ["bad"])).1 ∧
    (create_item_tag_association stateC "bad" (tagIdsBody [tag0Str])).1 =
      AssocResp.err 400 "Invalid ObjectId in item_id or tag_ids" :=
  ⟨rfl, rfl, rfl, rfl, rfl⟩

/-! ## Witnesses: each claim theorem applied at a concrete input -/

theorem claim1_witness :
    (create_item_tag_association stateC item2Str (tagIdsBody [tag0Str, tag0Str])).1 =
        AssocResp.err 404 "One or more tag_ids not found" ↔
      ¬ (([0, 0] : List OId).Nodup ∧
          ∀ o ∈ ([0, 0] : List OId), o ∈ stateC.tags.map Prod.fst) :=
  claim1_tagsNotFound_iff stateC item2Str (tagIdsBody [tag0Str, tag0Str])
    (JVal.str tag0Str) [JVal.str tag0Str] 2 [0, 0] rfl rfl rfl rfl

theorem claim2_witness :
    (create_item_tag_association stateC item2Str [("tag_ids", JVal.arr [])]).1 =
        AssocResp.err 400 "tag_ids must be a non-empty list" ↔
      (jGet [("tag_ids", JVal.arr [])] "tag_ids" = none ∨
        jGet [("tag_ids", JVal.arr [])] "tag_ids" = some (JVal.arr []) ∨
        ∃ w, jGet [("tag_ids", JVal.arr [])] "tag_ids" = some w ∧
          ∀ l, w ≠ JVal.arr l) :=
  claim2_assoc_invalidInput_iff stateC item2Str [("tag_ids", JVal.arr [])]

theorem claim3_witness :
    (create_item_tag_association stateC "bad" (tagIdsBody [tag1Str])).1 =
      AssocResp.err 400 "Invalid ObjectId in item_id or tag_ids" :=
  (claim3_check_order stateC "bad" (tagIdsBody [tag1Str])).2.1
    (JVal.str tag1Str) [] rfl (Or.inl rfl)

theorem claim4_witness :
    create_item_tag_association
        (create_item_tag_association stateC item2Str (tagIdsBody [tag0Str])).2
        item2Str (tagIdsBody [tag0Str]) =
      ((create_item_tag_association stateC item2Str (tagIdsBody [tag0Str])).1,
       (create_item_tag_association stateC item2Str (tagIdsBody [tag0Str])).2) :=
  claim4_assoc_idempotent stateC item2Str (tagIdsBody [tag0Str])
    "Tags associated with item" item2Str [tag0Str] rfl

theorem claim5_witness :
    ((create_item_tag_association
        (create_item_tag_association stateC item2Str (tagIdsBody [tag0Str])).2
        item2Str (tagIdsBody [tag1Str])).2.item_tags.find?
          (fun r => decide (r.item_id = 2))).map (fun r => r.tag_ids.toFinset) =
      some {0, 1} :=
  (claim5_assoc_union_accumulating stateC reachable_stateC item2Str tag0Str tag1Str
    2 0 1 rfl rfl rfl (by decide) (by decide) (by decide) rfl).2.2.2.1

theorem claim6_witness :
    (get_tags_for_item stateD item2Str).1 =
      TagsForResp.ok 200 ((stateD.tags.filter
        (fun tg => decide (tg.1 ∈ (⟨2, [0]⟩ : ItemTagRec).tag_ids))).map
        (fun tg => (formatOid tg.1, tg.2))) :=
  ((((claim6_tagsFor_spec stateD reachable_stateD item2Str).2 2 rfl).2
    ⟨2, [0]⟩ rfl).2 (by decide)).1

theorem claim7_witness :
    create_item stateB (some itemPayload) =
      (CreateResp.ok 201 (formatOid stateB.nextOid),
       { stateB with
          items := stateB.items ++
            [(stateB.nextOid,
              ("item_title", JVal.str "Book") :: [("item_type", JVal.str "physical")])],
          nextOid := stateB.nextOid + 1 }) ∧
    create_tag stateB (some itemPayload) =
      (CreateResp.ok 200 (formatOid stateB.nextOid),
       { stateB with
          tags := stateB.tags ++
            [(stateB.nextOid,
              ("item_title", JVal.str "Book") :: [("item_type", JVal.str "physical")])],
          nextOid := stateB.nextOid + 1 }) :=
  (claim7_create_emptyPayload_iff stateB (some itemPayload)).2.2
    ("item_title", JVal.str "Book") [("item_type", JVal.str "physical")] rfl

theorem claim8_witness : ∃ d, ((0 : OId), d) ∈ stateD.tags :=
  claim8_referential_integrity stateD reachable_stateD ⟨2, [0]⟩ (by decide) 0 (by decide)

theorem claim9_witness :
    (create_item_tag_association stateC "bad" (tagIdsBody [tag0Str])).2.items =
        stateC.items ∧
    (create_item_tag_association stateC "bad" (tagIdsBody [tag0Str])).2.tags =
        stateC.tags ∧
    (create_item_tag_association stateC "bad" (tagIdsBody [tag0Str])).2.item_tags =
        stateC.item_tags :=
  claim9_assoc_error_atomic stateC "bad" (tagIdsBody [tag0Str]) 400
    "Invalid ObjectId in item_id or tag_ids" rfl

theorem claim10_witness :
    (create_item_tag_association stateC item2Str (tagIdsBody [tag0Str])).2.item_tags.filter
        (fun r => decide (¬ r.item_id = 2)) =
      stateC.item_tags.filter (fun r => decide (¬ r.item_id = 2)) :=
  ((claim10_frame stateC item2Str).2.2.2 (tagIdsBody [tag0Str])
    "Tags associated with item" item2Str [tag0Str] 2 rfl rfl).2.2.1

end TaggingSystem
